import Mathlib

/-!
Verification development for the fakeweb repository.

This file shallowly embeds the event-correlation engine of
`src/fakeweb/event.py` and the command layer of `src/fakeweb/api.py`:

* `Event`, `Event.from_json`, `Event.dict` model the wire event record;
* `ManagerState` models one `AsyncEventManager` instance: its two waiter
  tables (`pending_requests`, keyed by command identity, and
  `pending_type_requests`, keyed by event category), its hook registry
  (`hook_events`), and the states of all `asyncio.Future` objects ever
  allocated by the manager (indexed by `Nat`);
* `handle_response`, `on_ws_closed`, `add_hook` mirror the synchronous
  methods of `AsyncEventManager`;
* the coroutines `wait_for_response` / `wait_for_event_type` are split at
  their suspension point into a registration step
  (`wait_for_response_register` / `wait_for_event_type_register`) and a
  completion step (`wait_for_response_finish` / `wait_for_event_type_finish`)
  covering the `await` result, the `asyncio.TimeoutError` branch and the
  `finally` cleanup;
* `EventWebViewReceivedException.convert`, `Event.exception`, `loaded`,
  `FakeBrowser.start` and `execute_js_interpret` model the error-payload
  translation and the command layer.  JSON parsing of the opaque `content`
  string is delegated to an explicit `parse` parameter, since the engine
  itself treats content as opaque text.

Python dictionaries are modelled as association lists with unique keys;
`dictInsert` replaces an existing binding in place and `dictErase` removes a
binding, matching `dict.__setitem__` and `dict.pop` on the unique-key states
the code actually produces.
-/

namespace Fakeweb

/-- One wire event, mirroring the `Event` dataclass of `event.py`:
fields `id`, `type`, `content` and the optional `parent_id`. -/
structure Event where
  id : String
  type : String
  content : String
  parent_id : Option String
deriving DecidableEq

/-- String value of `EventType.EVALJS` in `event.py`. -/
def EventType.EVALJS : String := "EVALJS"

/-- String value of `EventType.EVALJS_CALLBACK` in `event.py`. -/
def EventType.EVALJS_CALLBACK : String := "EVALJS_CALLBACK"

/-- String value of `EventType.EVALJS_FAILURE` in `event.py`. -/
def EventType.EVALJS_FAILURE : String := "EVALJS_FAILURE"

/-- String value of `EventType.WEBVIEW_PAGE_FINISHED` in `event.py`. -/
def EventType.WEBVIEW_PAGE_FINISHED : String := "WEBVIEW_PAGE_FINISHED"

/-- String value of `EventType.WEBVIEW_RECEIVED_ERROR` in `event.py`. -/
def EventType.WEBVIEW_RECEIVED_ERROR : String := "WEBVIEW_RECEIVED_ERROR"

/-- A wire record as received from the transport, before `Event.from_json`:
each field may be present or absent, and a present `parent_id` may still be
null (`some none`). -/
structure WireRecord where
  idField : Option String
  typeField : Option String
  contentField : Option String
  parentIdField : Option (Option String)
deriving DecidableEq

/-- Model of `Event.from_json` (`event.py`): `data["id"]`, `data["type"]`,
`data["content"]` raise `KeyError` when absent (modelled as `none`), while
`parent_id` is read with `data.get("parent_id")`, which yields `None` both
for an absent key and for a present null. -/
def Event.from_json (d : WireRecord) : Option Event :=
  match d.idField, d.typeField, d.contentField with
  | some i, some t, some c =>
      some { id := i, type := t, content := c,
             parent_id := d.parentIdField.bind (fun x => x) }
  | _, _, _ => none

/-- Model of the `Event.dict` property (`event.py`): all four keys are
emitted, `parent_id` possibly as null. -/
def Event.dict (e : Event) : WireRecord :=
  { idField := some e.id, typeField := some e.type,
    contentField := some e.content, parentIdField := some e.parent_id }

/-- The exceptions `AsyncEventManager` ever raises into a future:
`ClientClosedException` from `on_ws_closed`. -/
inductive Exn
  | clientClosed
deriving DecidableEq

/-- State of one `asyncio.Future`: still pending, resolved by
`set_result` with an event, failed by `set_exception`, or cancelled by the
`asyncio.wait_for` timeout machinery. -/
inductive FutState
  | pending
  | done (e : Event)
  | failed (x : Exn)
  | cancelled
deriving DecidableEq

/-- Lookup in a Python-dict model (first binding of the key). -/
def dictLookup (k : String) : List (String × Nat) → Option Nat
  | [] => none
  | (k', v) :: rest => if k' = k then some v else dictLookup k rest

/-- Removal of a key from a Python-dict model (`dict.pop(k, None)`). -/
def dictErase (k : String) (d : List (String × Nat)) : List (String × Nat) :=
  d.filter (fun p => p.1 ≠ k)

/-- Assignment `d[k] = v` in a Python-dict model: replaces the binding of an
existing key in place, otherwise appends. -/
def dictInsert (k : String) (v : Nat) : List (String × Nat) → List (String × Nat)
  | [] => [(k, v)]
  | (k', v') :: rest =>
      if k' = k then (k, v) :: rest else (k', v') :: dictInsert k v rest

/-- Values view of a Python-dict model (`d.values()`). -/
def dictValues (d : List (String × Nat)) : List Nat := d.map (fun p => p.2)

/-- Lookup in the hook registry (`self.hook_events.get(t, [])` behaviour:
a missing category has no hooks). -/
def hookLookup (k : String) : List (String × List Nat) → List Nat
  | [] => []
  | (k', hs) :: rest => if k' = k then hs else hookLookup k rest

/-- Appending one hook under a category, as `AsyncEventManager.add_hook`
does: create the entry if missing, else append to the existing list. -/
def hookAdd (k : String) (hid : Nat) : List (String × List Nat) → List (String × List Nat)
  | [] => [(k, [hid])]
  | (k', hs) :: rest =>
      if k' = k then (k', hs ++ [hid]) :: rest else (k', hs) :: hookAdd k hid rest

/-- State of one `AsyncEventManager`: the future store plus the two waiter
tables and the hook registry.  Hook callbacks are identified by opaque
numeric ids; invoking a hook is recorded rather than executed. -/
structure ManagerState where
  futures : List FutState
  pending_requests : List (String × Nat)
  pending_type_requests : List (String × Nat)
  hook_events : List (String × List Nat)
deriving DecidableEq

/-- Model of `AsyncEventManager.add_hook`. -/
def add_hook (event_type : String) (hid : Nat) (s : ManagerState) : ManagerState :=
  { s with hook_events := hookAdd event_type hid s.hook_events }

/-- Model of `AsyncEventManager.create_event`: a fresh identity (the uuid,
supplied here as the `fresh` argument), the given category, the content
(already text) and the optional parent identity. -/
def create_event (fresh : String) (type : String) (content : String)
    (parent_id : Option String := none) : Event :=
  { id := fresh, type := type, content := content, parent_id := parent_id }

/-- Registration half of `AsyncEventManager.wait_for_response`: allocate a
fresh future and store it in `pending_requests` under `event_id`.  Returns
the new state and the index of the allocated future. -/
def wait_for_response_register (event_id : String) (s : ManagerState) :
    ManagerState × Nat :=
  let fid := s.futures.length
  ({ s with futures := s.futures ++ [FutState.pending],
            pending_requests := dictInsert event_id fid s.pending_requests },
   fid)

/-- Registration half of `AsyncEventManager.wait_for_event_type`: allocate a
single fresh future and store it in `pending_type_requests` under every
supplied category key. -/
def wait_for_event_type_register (event_types : List String) (s : ManagerState) :
    ManagerState × Nat :=
  let fid := s.futures.length
  ({ s with futures := s.futures ++ [FutState.pending],
            pending_type_requests :=
              event_types.foldl (fun d k => dictInsert k fid d) s.pending_type_requests },
   fid)

/-- The guarded resolution `if not future.done(): future.set_result(event)`
used by `handle_response`. -/
def trySetResult (fid : Nat) (e : Event) (futs : List FutState) : List FutState :=
  match futs[fid]? with
  | some FutState.pending => futs.set fid (FutState.done e)
  | _ => futs

/-- Model of `AsyncEventManager.handle_response`: resolve the identity-table
future selected by a truthy `parent_id`, then the category-table future
selected by `type`, then record one invocation `(hook, content)` per hook
registered for `type`.  Note `if event.parent_id and ...`: an empty-string
`parent_id` is falsy in Python and skips the identity branch. -/
def handle_response (e : Event) (s : ManagerState) :
    ManagerState × List (Nat × String) :=
  let futs1 :=
    match e.parent_id with
    | some p =>
        if p = "" then s.futures
        else
          match dictLookup p s.pending_requests with
          | some fid => trySetResult fid e s.futures
          | none => s.futures
    | none => s.futures
  let futs2 :=
    match dictLookup e.type s.pending_type_requests with
    | some fid => trySetResult fid e futs1
    | none => futs1
  ({ s with futures := futs2 },
   (hookLookup e.type s.hook_events).map (fun h => (h, e.content)))

/-- Folding `handle_response` over a list of inbound events, in order. -/
def dispatchAll (es : List Event) (s : ManagerState) : ManagerState :=
  es.foldl (fun st e => (handle_response e st).1) s

/-- The unguarded `future.set_exception(ClientClosedException())` used by
`on_ws_closed`: on a future that is not pending, `asyncio` raises
`InvalidStateError`, modelled by `none`. -/
def setExnStrict (fid : Nat) (futs : List FutState) : Option (List FutState) :=
  match futs[fid]? with
  | some FutState.pending => some (futs.set fid (FutState.failed Exn.clientClosed))
  | _ => none

/-- Sequentially apply `setExnStrict` to each future id, stopping with
`none` on the first `InvalidStateError`. -/
def setExnAll : List Nat → List FutState → Option (List FutState)
  | [], futs => some futs
  | fid :: rest, futs =>
      match setExnStrict fid futs with
      | some futs' => setExnAll rest futs'
      | none => none

/-- Model of `AsyncEventManager.on_ws_closed`: iterate the values of the
identity table, then of the category table, raising `ClientClosedException`
into each without a doneness check and without clearing either table.
`none` models the call itself raising `InvalidStateError`. -/
def on_ws_closed (s : ManagerState) : Option ManagerState :=
  match setExnAll (dictValues s.pending_requests) s.futures with
  | none => none
  | some f1 =>
      match setExnAll (dictValues s.pending_type_requests) f1 with
      | none => none
      | some f2 => some { s with futures := f2 }

/-- What a waiter coroutine observes when it resumes. -/
inductive WaitResult
  | gotEvent (e : Event)
  | noResult
  | connClosed
deriving DecidableEq

/-- Resumption value of an awaiting coroutine: a resolved future yields its
event, a failed future re-raises (the `ClientClosedException`), and a still
pending future yields the no-result outcome exactly when the
`asyncio.wait_for` timeout has fired (`timedOut`).  `none` means the wait
has not finished. -/
def waitOutcome (fid : Nat) (timedOut : Bool) (futs : List FutState) :
    Option WaitResult :=
  match futs[fid]? with
  | some (FutState.done e) => some (WaitResult.gotEvent e)
  | some (FutState.failed _) => some WaitResult.connClosed
  | some FutState.pending => if timedOut then some WaitResult.noResult else none
  | _ => none

/-- The cancellation `asyncio.wait_for` performs on its future when the
timeout fires while the future is still pending. -/
def cancelIfPending (fid : Nat) (futs : List FutState) : List FutState :=
  match futs[fid]? with
  | some FutState.pending => futs.set fid FutState.cancelled
  | _ => futs

/-- Completion half of `wait_for_response`: the awaiting coroutine resumes
with `waitOutcome`, the timeout branch returns `None` (here
`WaitResult.noResult`) after `wait_for` cancelled the future, and the
`finally` block pops `event_id` from `pending_requests` unconditionally --
removing whatever entry currently occupies that key. -/
def wait_for_response_finish (event_id : String) (fid : Nat) (timedOut : Bool)
    (s : ManagerState) : Option (ManagerState × WaitResult) :=
  match waitOutcome fid timedOut s.futures with
  | none => none
  | some r =>
      some ({ s with
                futures := if timedOut then cancelIfPending fid s.futures else s.futures,
                pending_requests := dictErase event_id s.pending_requests },
            r)

/-- Completion half of `wait_for_event_type`: as `wait_for_response_finish`,
but the `finally` block pops every one of the wait's category keys from
`pending_type_requests`. -/
def wait_for_event_type_finish (event_types : List String) (fid : Nat)
    (timedOut : Bool) (s : ManagerState) : Option (ManagerState × WaitResult) :=
  match waitOutcome fid timedOut s.futures with
  | none => none
  | some r =>
      some ({ s with
                futures := if timedOut then cancelIfPending fid s.futures else s.futures,
                pending_type_requests :=
                  event_types.foldl (fun d k => dictErase k d) s.pending_type_requests },
            r)

/-- The `request` sub-object of a received-error payload, with exactly the
keyword arguments accepted by `WebViewConnectionTimeoutException.__init__`:
`uri`, `method`, `requestHeaders`, `isRedirect`, `isForMainFrame`. -/
structure RequestInfo where
  uri : String
  method : String
  requestHeaders : List (String × String)
  isRedirect : Bool
  isForMainFrame : Bool
deriving DecidableEq

/-- A parsed received-error payload `{code, msg, request}`, each field read
with `data.get(...)` and hence optional. -/
structure ErrorPayload where
  code : Option Int
  msg : Option String
  request : Option RequestInfo
deriving DecidableEq

/-- Result of `EventWebViewReceivedException.convert`: either a
`WebViewConnectionTimeoutException` carrying the request sub-fields, or the
original `EventWebViewReceivedException` (which retains the whole payload,
in particular its `code` and `msg`). -/
inductive ConvertResult
  | timeoutExn (r : RequestInfo)
  | receivedExn (p : ErrorPayload)
deriving DecidableEq

/-- Model of `EventWebViewReceivedException.convert` (`event.py`): when
`code == -8`, build `WebViewConnectionTimeoutException(**request)` -- which
raises `TypeError` (modelled `none`) when `request` is absent -- and
otherwise return the exception itself. -/
def EventWebViewReceivedException.convert (p : ErrorPayload) : Option ConvertResult :=
  if p.code = some (-8) then
    match p.request with
    | some r => some (ConvertResult.timeoutExn r)
    | none => none
  else some (ConvertResult.receivedExn p)

/-- Possible outcomes of evaluating the `Event.exception` property: no
exception (the event is not a received-error), a crash of the property
itself (JSON decode failure of `content`, or the `TypeError` inside
`convert`), or a converted exception value. -/
inductive ExcOf
  | noExc
  | crash
  | conv (c : ConvertResult)
deriving DecidableEq

/-- Model of the `Event.exception` property: for a
`WEBVIEW_RECEIVED_ERROR` event, parse `content` (`json.loads`, delegated to
the `parse` argument) and run `convert`; for any other event type, `None`.
-/
def Event.exception (e : Event) (parse : String → Option ErrorPayload) : ExcOf :=
  if e.type = EventType.WEBVIEW_RECEIVED_ERROR then
    match parse e.content with
    | none => ExcOf.crash
    | some p =>
        match EventWebViewReceivedException.convert p with
        | none => ExcOf.crash
        | some c => ExcOf.conv c
  else ExcOf.noExc

/-- Character-level model of Python `str.startswith`, used by
`FakeBrowser.loaded` as `e.uri.startswith(self._start_url)`. -/
def pyStartsWith (s pre : String) : Bool := pre.data.isPrefixOf s.data

/-- The command-layer state `FakeBrowser.loaded` consults: `_start_url`,
the most recently issued navigation URL. -/
structure BrowserState where
  start_url : String
deriving DecidableEq

/-- Model of the state effect of `FakeBrowser.start`: record `url` as
`_start_url` (the two sends carry no correlation state). -/
def FakeBrowser.start (url : String) (b : BrowserState) : BrowserState :=
  { b with start_url := url }

/-- Outcome of one run of the `FakeBrowser.loaded` polling loop. -/
inductive LoadedOutcome
  | success
  | raisedTimeout (r : RequestInfo)
  | crashed
  | stillWaiting
deriving DecidableEq

/-- Model of `FakeBrowser.loaded` (`api.py`): the loop repeatedly awaits the
category pair {WEBVIEW_PAGE_FINISHED, WEBVIEW_RECEIVED_ERROR}; the argument
list is the sequence of events successive iterations receive.  A
page-finished event breaks out (success); a received-error event whose
decoded exception is a `WebViewConnectionTimeoutException` is raised only
when its `uri` starts with `_start_url`; every other received-error (the
generic `EventWebViewReceivedException`) is ignored and the loop continues.
An exhausted list means the loop is still awaiting the next event. -/
def loaded (parse : String → Option ErrorPayload) (b : BrowserState) :
    List Event → LoadedOutcome
  | [] => LoadedOutcome.stillWaiting
  | e :: rest =>
      if e.type = EventType.WEBVIEW_PAGE_FINISHED then LoadedOutcome.success
      else if e.type = EventType.WEBVIEW_RECEIVED_ERROR then
        match e.exception parse with
        | ExcOf.conv (ConvertResult.timeoutExn r) =>
            if pyStartsWith r.uri b.start_url then LoadedOutcome.raisedTimeout r
            else loaded parse b rest
        | ExcOf.crash => LoadedOutcome.crashed
        | _ => loaded parse b rest
      else loaded parse b rest

/-- Outcome of `FakeBrowser.execute_js` after its wait resolves: the
returned content, a raised `Exception("JavaScript execution failed: ...")`
carrying the remote payload, or `None`. -/
inductive ExecOutcome
  | result (content : String)
  | jsFailure (content : String)
  | noResult
deriving DecidableEq

/-- Model of the tail of `FakeBrowser.execute_js`: interpret the resolved
response.  An `EVALJS_CALLBACK` yields its content; an `EVALJS_FAILURE`
raises, carrying the remote payload; any other resolution, and in
particular the absent (timeout) resolution `None`, yields `None`. -/
def execute_js_interpret : Option Event → ExecOutcome
  | some r =>
      if r.type = EventType.EVALJS_CALLBACK then ExecOutcome.result r.content
      else if r.type = EventType.EVALJS_FAILURE then ExecOutcome.jsFailure r.content
      else ExecOutcome.noResult
  | none => ExecOutcome.noResult

/-! Helper lemmas about the dictionary model. -/

theorem dictLookup_insert (k k' : String) (v : Nat) (d : List (String × Nat)) :
    dictLookup k (dictInsert k' v d) = if k' = k then some v else dictLookup k d := by
  induction d with
  | nil => simp [dictInsert, dictLookup]
  | cons hd tl ih =>
      obtain ⟨a, b⟩ := hd
      by_cases h1 : a = k'
      · subst h1
        by_cases h2 : a = k <;> simp [dictInsert, dictLookup, h2]
      · by_cases h2 : a = k
        · subst h2
          have hk : ¬ k' = a := fun hc => h1 hc.symm
          simp [dictInsert, dictLookup, h1, hk]
        · simp [dictInsert, dictLookup, h1, h2, ih]

theorem dictLookup_erase (k k' : String) (d : List (String × Nat)) :
    dictLookup k (dictErase k' d) = if k' = k then none else dictLookup k d := by
  induction d with
  | nil => by_cases h : k' = k <;> simp [dictErase, dictLookup, h]
  | cons hd tl ih =>
      obtain ⟨a, b⟩ := hd
      by_cases h1 : a = k' <;> by_cases h2 : a = k <;>
        by_cases h3 : k' = k <;>
        simp_all [dictErase, dictLookup, List.filter]

theorem dictLookup_mem {k : String} {v : Nat} {d : List (String × Nat)}
    (h : dictLookup k d = some v) : (k, v) ∈ d := by
  induction d with
  | nil => simp [dictLookup] at h
  | cons hd tl ih =>
      obtain ⟨a, b⟩ := hd
      by_cases h1 : a = k
      · simp [dictLookup, h1] at h
        simp [h1, h]
      · simp [dictLookup, h1] at h
        simp [ih h]

theorem dictLookup_mem_values {k : String} {v : Nat} {d : List (String × Nat)}
    (h : dictLookup k d = some v) : v ∈ dictValues d := by
  have hm := dictLookup_mem h
  simp [dictValues]
  exact ⟨k, hm⟩

theorem dictLookup_ne_of_not_mem_values {k : String} {v : Nat}
    {d : List (String × Nat)} (h : v ∉ dictValues d) :
    dictLookup k d ≠ some v := by
  intro hc
  exact h (dictLookup_mem_values hc)

theorem dictValues_erase_not_mem {k : String} {v : Nat} {d : List (String × Nat)}
    (h : ∀ p ∈ d, p.2 = v → p.1 = k) : v ∉ dictValues (dictErase k d) := by
  intro hc
  unfold dictValues dictErase at hc
  rw [List.mem_map] at hc
  obtain ⟨p, hp, hpv⟩ := hc
  have h1 := List.mem_of_mem_filter hp
  have h2 := List.of_mem_filter hp
  have h3 : p.1 ≠ k := by simpa using h2
  exact h3 (h p h1 hpv)

theorem dictLookup_foldl_insert_of_not_mem {k : String} {v : Nat}
    {ks : List String} (d : List (String × Nat)) (h : k ∉ ks) :
    dictLookup k (ks.foldl (fun d k' => dictInsert k' v d) d) = dictLookup k d := by
  induction ks generalizing d with
  | nil => rfl
  | cons k0 rest ih =>
      simp only [List.foldl_cons]
      have hk0 : k0 ≠ k := by
        intro hc; exact h (by simp [hc])
      rw [ih _ (fun hc => h (by simp [hc]))]
      rw [dictLookup_insert, if_neg hk0]

theorem dictLookup_foldl_insert_mem {k : String} {v : Nat}
    {ks : List String} (d : List (String × Nat)) (h : k ∈ ks) :
    dictLookup k (ks.foldl (fun d k' => dictInsert k' v d) d) = some v := by
  induction ks generalizing d with
  | nil => simp at h
  | cons k0 rest ih =>
      simp only [List.foldl_cons]
      by_cases hr : k ∈ rest
      · exact ih _ hr
      · have hk : k = k0 := by
          rcases List.mem_cons.mp h with h' | h'
          · exact h'
          · exact absurd h' hr
        rw [dictLookup_foldl_insert_of_not_mem _ hr, hk,
            dictLookup_insert, if_pos rfl]

theorem dictLookup_foldl_erase_of_none {k : String} {ks : List String}
    (d : List (String × Nat)) (h : dictLookup k d = none) :
    dictLookup k (ks.foldl (fun d k' => dictErase k' d) d) = none := by
  induction ks generalizing d with
  | nil => exact h
  | cons k0 rest ih =>
      simp only [List.foldl_cons]
      apply ih
      rw [dictLookup_erase]
      by_cases h0 : k0 = k <;> simp [h0, h]

theorem dictLookup_foldl_erase_mem {k : String} {ks : List String}
    (d : List (String × Nat)) (h : k ∈ ks) :
    dictLookup k (ks.foldl (fun d k' => dictErase k' d) d) = none := by
  induction ks generalizing d with
  | nil => simp at h
  | cons k0 rest ih =>
      simp only [List.foldl_cons]
      by_cases hr : k ∈ rest
      · exact ih _ hr
      · have hk : k = k0 := by
          rcases List.mem_cons.mp h with h' | h'
          · exact h'
          · exact absurd h' hr
        apply dictLookup_foldl_erase_of_none
        rw [dictLookup_erase, hk, if_pos rfl]

/-! Helper lemmas about future-store updates. -/

theorem trySetResult_getElem_ne {f fid : Nat} (e : Event) (futs : List FutState)
    (h : f ≠ fid) : (trySetResult fid e futs)[f]? = futs[f]? := by
  unfold trySetResult
  cases hf : futs[fid]? with
  | none => rfl
  | some x =>
      cases x with
      | pending => exact List.getElem?_set_ne h.symm
      | done e2 => rfl
      | failed x2 => rfl
      | cancelled => rfl

theorem trySetResult_pending {fid : Nat} (e : Event) {futs : List FutState}
    (h : futs[fid]? = some FutState.pending) :
    (trySetResult fid e futs)[fid]? = some (FutState.done e) := by
  unfold trySetResult
  rw [h]
  have hlt : fid < futs.length := by
    by_contra hc
    rw [List.getElem?_eq_none (Nat.le_of_not_lt hc)] at h
    exact Option.noConfusion h
  simp [List.getElem?_set_self hlt]

theorem trySetResult_of_not_pending {fid : Nat} (e : Event) {futs : List FutState}
    {x : FutState} (h : futs[fid]? = some x) (hx : x ≠ FutState.pending) :
    trySetResult fid e futs = futs := by
  unfold trySetResult
  rw [h]
  cases x with
  | pending => exact absurd rfl hx
  | done _ => rfl
  | failed _ => rfl
  | cancelled => rfl

theorem cancelIfPending_getElem_ne {f fid : Nat} (futs : List FutState)
    (h : f ≠ fid) : (cancelIfPending fid futs)[f]? = futs[f]? := by
  unfold cancelIfPending
  cases hf : futs[fid]? with
  | none => rfl
  | some x =>
      cases x with
      | pending => exact List.getElem?_set_ne h.symm
      | done e2 => rfl
      | failed x2 => rfl
      | cancelled => rfl

theorem cancelIfPending_pending {fid : Nat} {futs : List FutState}
    (h : futs[fid]? = some FutState.pending) :
    (cancelIfPending fid futs)[fid]? = some FutState.cancelled := by
  unfold cancelIfPending
  rw [h]
  have hlt : fid < futs.length := by
    by_contra hc
    rw [List.getElem?_eq_none (Nat.le_of_not_lt hc)] at h
    exact Option.noConfusion h
  simp [List.getElem?_set_self hlt]

theorem setExnAll_getElem_not_mem {f : Nat} {fids : List Nat}
    {futs futs' : List FutState} (h : f ∉ fids)
    (hs : setExnAll fids futs = some futs') : futs'[f]? = futs[f]? := by
  induction fids generalizing futs with
  | nil =>
      unfold setExnAll at hs
      cases hs
      rfl
  | cons fid rest ih =>
      unfold setExnAll setExnStrict at hs
      cases hf : futs[fid]? with
      | none => rw [hf] at hs; exact Option.noConfusion hs
      | some x =>
          rw [hf] at hs
          cases x with
          | pending =>
              simp only [] at hs
              have hne : f ≠ fid := fun hc => h (by simp [hc])
              have := ih (fun hc => h (by simp [hc])) hs
              rw [this, List.getElem?_set_ne hne.symm]
          | done e2 => exact Option.noConfusion hs
          | failed x2 => exact Option.noConfusion hs
          | cancelled => exact Option.noConfusion hs

theorem setExnAll_ok {fids : List Nat} {futs : List FutState}
    (hnd : fids.Nodup) (hp : ∀ f ∈ fids, futs[f]? = some FutState.pending) :
    ∃ futs', setExnAll fids futs = some futs' ∧
      (∀ f ∈ fids, futs'[f]? = some (FutState.failed Exn.clientClosed)) ∧
      ∀ g, g ∉ fids → futs'[g]? = futs[g]? := by
  induction fids generalizing futs with
  | nil => exact ⟨futs, rfl, by simp, fun g _ => rfl⟩
  | cons fid rest ih =>
      have hfid := hp fid (by simp)
      have hlt : fid < futs.length := by
        by_contra hc
        rw [List.getElem?_eq_none (Nat.le_of_not_lt hc)] at hfid
        exact Option.noConfusion hfid
      have hnotmem : fid ∉ rest := (List.nodup_cons.mp hnd).1
      have hndr : rest.Nodup := (List.nodup_cons.mp hnd).2
      set futs1 := futs.set fid (FutState.failed Exn.clientClosed) with hfuts1
      have hpr : ∀ f ∈ rest, futs1[f]? = some FutState.pending := by
        intro f hf
        have hne : fid ≠ f := fun hc => hnotmem (hc ▸ hf)
        rw [hfuts1, List.getElem?_set_ne hne]
        exact hp f (by simp [hf])
      obtain ⟨futs', hset, hall, hpres⟩ := ih hndr hpr
      refine ⟨futs', ?_, ?_, ?_⟩
      · unfold setExnAll setExnStrict
        rw [hfid]
        exact hset
      · intro f hf
        rcases List.mem_cons.mp hf with h' | h'
        · subst h'
          rw [hpres f hnotmem, hfuts1, List.getElem?_set_self hlt]
        · exact hall f h'
      · intro g hg
        have hg1 : g ∉ rest := fun hc => hg (by simp [hc])
        have hg2 : g ≠ fid := fun hc => hg (by simp [hc])
        rw [hpres g hg1, hfuts1, List.getElem?_set_ne hg2.symm]

theorem setExnAll_append (a b : List Nat) (futs : List FutState) :
    setExnAll (a ++ b) futs = (setExnAll a futs).bind (fun f => setExnAll b f) := by
  induction a generalizing futs with
  | nil => rfl
  | cons fid rest ih =>
      rw [List.cons_append]
      show (match setExnStrict fid futs with
            | some futs' => setExnAll (rest ++ b) futs'
            | none => none) =
          (match setExnStrict fid futs with
            | some futs' => setExnAll rest futs'
            | none => none).bind (fun f => setExnAll b f)
      cases setExnStrict fid futs with
      | none => rfl
      | some futs1 => exact ih futs1

theorem on_ws_closed_eq (s : ManagerState) :
    on_ws_closed s =
      (setExnAll (dictValues s.pending_requests ++ dictValues s.pending_type_requests)
          s.futures).map
        (fun f => { s with futures := f }) := by
  unfold on_ws_closed
  rw [setExnAll_append]
  cases h1 : setExnAll (dictValues s.pending_requests) s.futures with
  | none => rfl
  | some f1 =>
      cases h2 : setExnAll (dictValues s.pending_type_requests) f1 with
      | none => simp [h2]
      | some f2 => simp [h2]

/-! Helper lemmas about `handle_response` and `dispatchAll`. -/

theorem handle_response_pending_requests (e : Event) (s : ManagerState) :
    (handle_response e s).1.pending_requests = s.pending_requests := rfl

theorem handle_response_pending_type_requests (e : Event) (s : ManagerState) :
    (handle_response e s).1.pending_type_requests = s.pending_type_requests := rfl

theorem handle_response_hook_events (e : Event) (s : ManagerState) :
    (handle_response e s).1.hook_events = s.hook_events := rfl

theorem handle_response_futures_getElem {f : Nat} (e : Event) (s : ManagerState)
    (hsel1 : ∀ p, e.parent_id = some p → dictLookup p s.pending_requests ≠ some f)
    (hsel2 : dictLookup e.type s.pending_type_requests ≠ some f) :
    ((handle_response e s).1.futures)[f]? = s.futures[f]? := by
  unfold handle_response
  simp only []
  have step1 :
      (match e.parent_id with
        | some p =>
            if p = "" then s.futures
            else
              match dictLookup p s.pending_requests with
              | some fid => trySetResult fid e s.futures
              | none => s.futures
        | none => s.futures)[f]? = s.futures[f]? := by
    cases hp : e.parent_id with
    | none => rfl
    | some p =>
        by_cases hpe : p = ""
        · simp [hpe]
        · simp only [if_neg hpe]
          cases hl : dictLookup p s.pending_requests with
          | none => rfl
          | some fid =>
              have hne : f ≠ fid := by
                intro hc
                exact hsel1 p hp (hc ▸ hl)
              exact trySetResult_getElem_ne e s.futures hne
  cases hl2 : dictLookup e.type s.pending_type_requests with
  | none => exact step1
  | some fid =>
      have hne : f ≠ fid := by
        intro hc
        exact hsel2 (hc ▸ hl2)
      rw [trySetResult_getElem_ne _ _ hne]
      exact step1

theorem dispatchAll_pending_requests (es : List Event) (s : ManagerState) :
    (dispatchAll es s).pending_requests = s.pending_requests := by
  induction es generalizing s with
  | nil => rfl
  | cons e rest ih =>
      unfold dispatchAll
      simp only [List.foldl_cons]
      rw [show (List.foldl (fun st e => (handle_response e st).1) ((handle_response e s).1) rest) =
            dispatchAll rest ((handle_response e s).1) from rfl]
      rw [ih, handle_response_pending_requests]

theorem dispatchAll_pending_type_requests (es : List Event) (s : ManagerState) :
    (dispatchAll es s).pending_type_requests = s.pending_type_requests := by
  induction es generalizing s with
  | nil => rfl
  | cons e rest ih =>
      unfold dispatchAll
      simp only [List.foldl_cons]
      rw [show (List.foldl (fun st e => (handle_response e st).1) ((handle_response e s).1) rest) =
            dispatchAll rest ((handle_response e s).1) from rfl]
      rw [ih, handle_response_pending_type_requests]

theorem dispatchAll_futures_getElem {f : Nat} (es : List Event) (s : ManagerState)
    (h1 : ∀ x ∈ es, ∀ p, x.parent_id = some p → dictLookup p s.pending_requests ≠ some f)
    (h2 : ∀ x ∈ es, dictLookup x.type s.pending_type_requests ≠ some f) :
    ((dispatchAll es s).futures)[f]? = s.futures[f]? := by
  induction es generalizing s with
  | nil => rfl
  | cons e rest ih =>
      unfold dispatchAll
      simp only [List.foldl_cons]
      rw [show (List.foldl (fun st e => (handle_response e st).1) ((handle_response e s).1) rest) =
            dispatchAll rest ((handle_response e s).1) from rfl]
      have hx := ih ((handle_response e s).1)
        (by
          intro x hx p hp
          rw [handle_response_pending_requests]
          exact h1 x (by simp [hx]) p hp)
        (by
          intro x hx
          rw [handle_response_pending_type_requests]
          exact h2 x (by simp [hx]))
      rw [hx]
      exact handle_response_futures_getElem e s
        (h1 e (by simp)) (h2 e (by simp))

theorem handle_response_resolves_ident (e : Event) (s : ManagerState)
    {p : String} {fid : Nat}
    (hp : e.parent_id = some p) (hpe : p ≠ "")
    (hl : dictLookup p s.pending_requests = some fid)
    (hpend : s.futures[fid]? = some FutState.pending)
    (ht : dictLookup e.type s.pending_type_requests ≠ some fid) :
    ((handle_response e s).1.futures)[fid]? = some (FutState.done e) := by
  unfold handle_response
  simp only [hp, if_neg hpe, hl]
  cases hl2 : dictLookup e.type s.pending_type_requests with
  | none => exact trySetResult_pending e hpend
  | some fid2 =>
      have hne : fid ≠ fid2 := by
        intro hc
        exact ht (hc ▸ hl2)
      rw [trySetResult_getElem_ne _ _ hne]
      exact trySetResult_pending e hpend

theorem handle_response_resolves_cat (e : Event) (s : ManagerState) {fid : Nat}
    (hl : dictLookup e.type s.pending_type_requests = some fid)
    (hpend : s.futures[fid]? = some FutState.pending)
    (hi : ∀ p, e.parent_id = some p → dictLookup p s.pending_requests ≠ some fid) :
    ((handle_response e s).1.futures)[fid]? = some (FutState.done e) := by
  unfold handle_response
  simp only [hl]
  have step1 :
      (match e.parent_id with
        | some p =>
            if p = "" then s.futures
            else
              match dictLookup p s.pending_requests with
              | some fid => trySetResult fid e s.futures
              | none => s.futures
        | none => s.futures)[fid]? = some FutState.pending := by
    cases hp : e.parent_id with
    | none => exact hpend
    | some p =>
        by_cases hpe : p = ""
        · simp [hpe, hpend]
        · simp only [if_neg hpe]
          cases hl1 : dictLookup p s.pending_requests with
          | none => exact hpend
          | some fid1 =>
              have hne : fid ≠ fid1 := by
                intro hc
                exact hi p hp (hc ▸ hl1)
              rw [trySetResult_getElem_ne _ _ hne]
              exact hpend
  exact trySetResult_pending e step1

theorem handle_response_keeps_done (e' : Event) (s : ManagerState)
    {fid : Nat} {ev : Event}
    (hdone : s.futures[fid]? = some (FutState.done ev))
    (hi : ∀ p, e'.parent_id = some p → dictLookup p s.pending_requests ≠ some fid) :
    ((handle_response e' s).1.futures)[fid]? = some (FutState.done ev) := by
  unfold handle_response
  simp only []
  have step1 :
      (match e'.parent_id with
        | some p =>
            if p = "" then s.futures
            else
              match dictLookup p s.pending_requests with
              | some fid => trySetResult fid e' s.futures
              | none => s.futures
        | none => s.futures)[fid]? = some (FutState.done ev) := by
    cases hp : e'.parent_id with
    | none => exact hdone
    | some p =>
        by_cases hpe : p = ""
        · simp [hpe, hdone]
        · simp only [if_neg hpe]
          cases hl1 : dictLookup p s.pending_requests with
          | none => exact hdone
          | some fid1 =>
              have hne : fid ≠ fid1 := by
                intro hc
                exact hi p hp (hc ▸ hl1)
              rw [trySetResult_getElem_ne _ _ hne]
              exact hdone
  cases hl2 : dictLookup e'.type s.pending_type_requests with
  | none => exact step1
  | some fid2 =>
      by_cases hne : fid = fid2
      · subst hne
        dsimp only
        rw [trySetResult_of_not_pending e' step1 (fun hc => FutState.noConfusion hc)]
        exact step1
      · dsimp only
        rw [trySetResult_getElem_ne _ _ hne]
        exact step1

/-! Claim theorems. -/

/-- C6: for every received-error payload {code, msg, request}, a code equal
to the reserved connection-timeout sentinel -8 translates to a
`WebViewConnectionTimeoutException` carrying the whole `request` sub-object
(its uri, method, requestHeaders, isRedirect and isForMainFrame fields);
any other code translates to the generic `EventWebViewReceivedException`,
which retains the payload and hence its `code` and `msg`. -/
theorem C6_error_translation (p : ErrorPayload) (r : RequestInfo) :
    (p.code = some (-8) → p.request = some r →
      EventWebViewReceivedException.convert p = some (ConvertResult.timeoutExn r)) ∧
    (p.code ≠ some (-8) →
      EventWebViewReceivedException.convert p = some (ConvertResult.receivedExn p)) := by
  constructor
  · intro h8 hr
    unfold EventWebViewReceivedException.convert
    rw [if_pos h8, hr]
  · intro h8
    unfold EventWebViewReceivedException.convert
    rw [if_neg h8]

/-- Witness for C6: the spec's example payload with code -8 and request uri
"http://x" yields the connectivity-timeout exception with uri "http://x";
a payload with code 404 yields the generic exception retaining code and
msg. -/
theorem C6_error_translation_witness :
    EventWebViewReceivedException.convert
        { code := some (-8), msg := some "err",
          request := some { uri := "http://x", method := "GET", requestHeaders := [],
                            isRedirect := false, isForMainFrame := true } } =
      some (ConvertResult.timeoutExn
        { uri := "http://x", method := "GET", requestHeaders := [],
          isRedirect := false, isForMainFrame := true }) ∧
    EventWebViewReceivedException.convert
        { code := some 404, msg := some "m", request := none } =
      some (ConvertResult.receivedExn
        { code := some 404, msg := some "m", request := none }) :=
  ⟨(C6_error_translation
      { code := some (-8), msg := some "err",
        request := some { uri := "http://x", method := "GET", requestHeaders := [],
                          isRedirect := false, isForMainFrame := true } }
      { uri := "http://x", method := "GET", requestHeaders := [],
        isRedirect := false, isForMainFrame := true }).1 rfl rfl,
   (C6_error_translation
      { code := some 404, msg := some "m", request := none }
      { uri := "", method := "", requestHeaders := [],
        isRedirect := false, isForMainFrame := false }).2 (by decide)⟩

/-- C10: wire round trip: decoding `e.dict` yields `e` back; a wire record
whose parent_id key is absent decodes to an event with `parent_id = none`;
a record missing id, type, or content fails to decode. -/
theorem C10_wire_round_trip :
    (∀ e : Event, Event.from_json e.dict = some e) ∧
    (∀ i t c : String,
        Event.from_json { idField := some i, typeField := some t,
                          contentField := some c, parentIdField := none } =
          some { id := i, type := t, content := c, parent_id := none }) ∧
    (∀ (t c : Option String) (pid : Option (Option String)),
        Event.from_json { idField := none, typeField := t, contentField := c,
                          parentIdField := pid } = none) ∧
    (∀ (i c : Option String) (pid : Option (Option String)),
        Event.from_json { idField := i, typeField := none, contentField := c,
                          parentIdField := pid } = none) ∧
    (∀ (i t : Option String) (pid : Option (Option String)),
        Event.from_json { idField := i, typeField := t, contentField := none,
                          parentIdField := pid } = none) := by
  refine ⟨?_, ?_, ?_, ?_, ?_⟩
  · intro e
    cases e with
    | mk i t c pid => cases pid <;> rfl
  · intro i t c
    rfl
  · intro t c pid
    rfl
  · intro i c pid
    cases i <;> rfl
  · intro i t pid
    cases i <;> cases t <;> rfl

/-- C2: for an inbound event whose truthy `parent_id` occupies the identity
table and whose `type` occupies the category table, `handle_response`
resolves both (pending) waiters with the event and records exactly one
invocation, with the event's content, for every hook registered for the
event's type, in registration order -- the dispatch is an independent
fan-out and hooks never consume the event. -/
theorem C2_dispatch_fanout (e : Event) (s : ManagerState) (p : String) (fi ft : Nat)
    (hp : e.parent_id = some p) (hpe : p ≠ "")
    (hli : dictLookup p s.pending_requests = some fi)
    (hlt : dictLookup e.type s.pending_type_requests = some ft)
    (hne : fi ≠ ft)
    (hpi : s.futures[fi]? = some FutState.pending)
    (hpt : s.futures[ft]? = some FutState.pending) :
    ((handle_response e s).1.futures)[fi]? = some (FutState.done e) ∧
    ((handle_response e s).1.futures)[ft]? = some (FutState.done e) ∧
    (handle_response e s).2 = (hookLookup e.type s.hook_events).map (fun h => (h, e.content)) := by
  refine ⟨?_, ?_, rfl⟩
  · exact handle_response_resolves_ident e s hp hpe hli hpi
      (by rw [hlt]; intro hc; exact hne ((Option.some.injEq ft fi).mp hc).symm)
  · exact handle_response_resolves_cat e s hlt hpt
      (by
        intro q hq
        rw [hp] at hq
        cases hq
        rw [hli]
        intro hc
        exact hne ((Option.some.injEq fi ft).mp hc))

/-- Witness for C2: one event simultaneously resolves an identity waiter,
resolves a category waiter, and fires both hooks registered for its type. -/
theorem C2_dispatch_fanout_witness :
    ((handle_response { id := "r1", type := "NETWORK_LOG", content := "data", parent_id := some "cmd1" }
        { futures := [FutState.pending, FutState.pending],
          pending_requests := [("cmd1", 0)],
          pending_type_requests := [("NETWORK_LOG", 1)],
          hook_events := [("NETWORK_LOG", [7, 8])] }).1.futures)[0]? =
      some (FutState.done { id := "r1", type := "NETWORK_LOG", content := "data", parent_id := some "cmd1" }) ∧
    ((handle_response { id := "r1", type := "NETWORK_LOG", content := "data", parent_id := some "cmd1" }
        { futures := [FutState.pending, FutState.pending],
          pending_requests := [("cmd1", 0)],
          pending_type_requests := [("NETWORK_LOG", 1)],
          hook_events := [("NETWORK_LOG", [7, 8])] }).1.futures)[1]? =
      some (FutState.done { id := "r1", type := "NETWORK_LOG", content := "data", parent_id := some "cmd1" }) ∧
    (handle_response { id := "r1", type := "NETWORK_LOG", content := "data", parent_id := some "cmd1" }
        { futures := [FutState.pending, FutState.pending],
          pending_requests := [("cmd1", 0)],
          pending_type_requests := [("NETWORK_LOG", 1)],
          hook_events := [("NETWORK_LOG", [7, 8])] }).2 =
      (hookLookup "NETWORK_LOG" [("NETWORK_LOG", [7, 8])]).map (fun h => (h, "data")) :=
  C2_dispatch_fanout
    { id := "r1", type := "NETWORK_LOG", content := "data", parent_id := some "cmd1" }
    { futures := [FutState.pending, FutState.pending],
      pending_requests := [("cmd1", 0)],
      pending_type_requests := [("NETWORK_LOG", 1)],
      hook_events := [("NETWORK_LOG", [7, 8])] }
    "cmd1" 0 1 rfl (by decide) (by decide) (by decide) (by decide) rfl rfl

/-- C3: `execute_js` builds a command event carrying the fresh identity,
awaits by that identity, and: a resolving EVALJS_CALLBACK response returns
the response's content; an EVALJS_FAILURE response raises an execution
error carrying the remote payload; an absent resolution (timeout) yields
None, not an error. -/
theorem C3_execute_js (s0 s1 : ManagerState) (fid : Nat) (u js : String) (r : Event)
    (hu : u ≠ "")
    (hreg : wait_for_response_register u s0 = (s1, fid))
    (hwf : ∀ v ∈ dictValues s0.pending_type_requests, v < s0.futures.length)
    (hpr : r.parent_id = some u) :
    (create_event u EventType.EVALJS js).id = u ∧
    (create_event u EventType.EVALJS js).type = "EVALJS" ∧
    (create_event u EventType.EVALJS js).content = js ∧
    dictLookup u s1.pending_requests = some fid ∧
    s1.futures[fid]? = some FutState.pending ∧
    ((handle_response r s1).1.futures)[fid]? = some (FutState.done r) ∧
    (wait_for_response_finish u fid false (handle_response r s1).1).map (fun x => x.2) =
      some (WaitResult.gotEvent r) ∧
    (r.type = EventType.EVALJS_CALLBACK →
      execute_js_interpret (some r) = ExecOutcome.result r.content) ∧
    (r.type = EventType.EVALJS_FAILURE →
      execute_js_interpret (some r) = ExecOutcome.jsFailure r.content) ∧
    execute_js_interpret none = ExecOutcome.noResult := by
  unfold wait_for_response_register at hreg
  simp only [Prod.mk.injEq] at hreg
  obtain ⟨hs1, hfid⟩ := hreg
  have hlook : dictLookup u s1.pending_requests = some fid := by
    rw [← hs1, ← hfid]
    simp only []
    rw [dictLookup_insert, if_pos rfl]
  have hpend : s1.futures[fid]? = some FutState.pending := by
    rw [← hs1, ← hfid]
    simp only []
    exact List.getElem?_concat_length _ _
  have htne : dictLookup r.type s1.pending_type_requests ≠ some fid := by
    rw [← hs1]
    simp only []
    intro hc
    have hv := dictLookup_mem_values hc
    have := hwf fid hv
    rw [← hfid] at this
    exact Nat.lt_irrefl _ this
  have hdone : ((handle_response r s1).1.futures)[fid]? = some (FutState.done r) :=
    handle_response_resolves_ident r s1 hpr hu hlook hpend htne
  refine ⟨rfl, rfl, rfl, hlook, hpend, hdone, ?_, ?_, ?_, rfl⟩
  · unfold wait_for_response_finish waitOutcome
    rw [hdone]
    rfl
  · intro hcb
    unfold execute_js_interpret
    dsimp only
    rw [if_pos hcb]
  · intro hfl
    unfold execute_js_interpret
    dsimp only
    rw [if_neg (by rw [hfl]; decide), if_pos hfl]

/-- Witness for C3, the spec's end-to-end scenario: the command is sent
with identity "abc" and content "1+1", the device answers with an
EVALJS_CALLBACK event with content "2" and parent_id "abc", and the call
returns "2". -/
theorem C3_execute_js_witness :
    dictLookup "abc"
        ((wait_for_response_register "abc"
            { futures := [], pending_requests := [], pending_type_requests := [],
              hook_events := [] }).1).pending_requests = some 0 ∧
    ((handle_response { id := "r1", type := "EVALJS_CALLBACK", content := "2", parent_id := some "abc" }
        (wait_for_response_register "abc"
            { futures := [], pending_requests := [], pending_type_requests := [],
              hook_events := [] }).1).1.futures)[0]? =
      some (FutState.done { id := "r1", type := "EVALJS_CALLBACK", content := "2", parent_id := some "abc" }) ∧
    execute_js_interpret
        (some { id := "r1", type := "EVALJS_CALLBACK", content := "2", parent_id := some "abc" }) =
      ExecOutcome.result "2" := by
  have h := C3_execute_js
    { futures := [], pending_requests := [], pending_type_requests := [], hook_events := [] }
    (wait_for_response_register "abc"
      { futures := [], pending_requests := [], pending_type_requests := [],
        hook_events := [] }).1
    0 "abc" "1+1"
    { id := "r1", type := "EVALJS_CALLBACK", content := "2", parent_id := some "abc" }
    (by decide) rfl (by decide) rfl
  exact ⟨h.2.2.2.1, h.2.2.2.2.2.1, h.2.2.2.2.2.2.2.1 rfl⟩

theorem event_exception_timeout (e : Event) (parse : String → Option ErrorPayload)
    (p : ErrorPayload) (r : RequestInfo)
    (he : e.type = EventType.WEBVIEW_RECEIVED_ERROR)
    (hp : parse e.content = some p) (hc : p.code = some (-8))
    (hr : p.request = some r) :
    Event.exception e parse = ExcOf.conv (ConvertResult.timeoutExn r) := by
  unfold Event.exception
  rw [if_pos he, hp]
  dsimp only
  unfold EventWebViewReceivedException.convert
  rw [if_pos hc, hr]

theorem loaded_cons_finished (parse : String → Option ErrorPayload)
    (b : BrowserState) (e : Event) (rest : List Event)
    (he : e.type = EventType.WEBVIEW_PAGE_FINISHED) :
    loaded parse b (e :: rest) = LoadedOutcome.success := by
  unfold loaded
  rw [if_pos he]

theorem loaded_cons_timeout_error (parse : String → Option ErrorPayload)
    (b : BrowserState) (e : Event) (rest : List Event)
    (p : ErrorPayload) (r : RequestInfo)
    (he : e.type = EventType.WEBVIEW_RECEIVED_ERROR)
    (hp : parse e.content = some p) (hc : p.code = some (-8))
    (hr : p.request = some r) :
    loaded parse b (e :: rest) =
      if pyStartsWith r.uri b.start_url then LoadedOutcome.raisedTimeout r
      else loaded parse b rest := by
  have hne : ¬ (e.type = EventType.WEBVIEW_PAGE_FINISHED) := by
    rw [he]
    decide
  conv_lhs => rw [loaded.eq_def]
  dsimp only
  rw [if_neg hne, if_pos he, event_exception_timeout e parse p r he hp hc hr]

/-- C4: after a navigation to `url`, the non-raising poll loop `loaded`
ignores a received-error event that decodes to a connectivity-timeout whose
uri does not start with `url` (the loop continues, and a subsequent
page-finished event returns success), raises the connectivity-timeout when
the uri does match, and returns success immediately on a page-finished
event. -/
theorem C4_loaded (parse : String → Option ErrorPayload) (b0 : BrowserState)
    (url : String) (e1 e2 : Event) (p : ErrorPayload) (r : RequestInfo)
    (he1 : e1.type = EventType.WEBVIEW_RECEIVED_ERROR)
    (hp : parse e1.content = some p)
    (hc : p.code = some (-8))
    (hr : p.request = some r)
    (he2 : e2.type = EventType.WEBVIEW_PAGE_FINISHED) :
    (∀ rest, pyStartsWith r.uri url = false →
        loaded parse (FakeBrowser.start url b0) (e1 :: rest) =
          loaded parse (FakeBrowser.start url b0) rest) ∧
    (∀ rest, pyStartsWith r.uri url = false →
        loaded parse (FakeBrowser.start url b0) (e1 :: e2 :: rest) = LoadedOutcome.success) ∧
    (∀ rest, pyStartsWith r.uri url = true →
        loaded parse (FakeBrowser.start url b0) (e1 :: rest) = LoadedOutcome.raisedTimeout r) ∧
    (∀ rest, loaded parse (FakeBrowser.start url b0) (e2 :: rest) = LoadedOutcome.success) := by
  have hstart : (FakeBrowser.start url b0).start_url = url := rfl
  refine ⟨?_, ?_, ?_, ?_⟩
  · intro rest hmiss
    rw [loaded_cons_timeout_error parse _ e1 rest p r he1 hp hc hr,
        if_neg (by rw [hstart, hmiss]; decide)]
  · intro rest hmiss
    rw [loaded_cons_timeout_error parse _ e1 (e2 :: rest) p r he1 hp hc hr,
        if_neg (by rw [hstart, hmiss]; decide)]
    exact loaded_cons_finished parse _ e2 rest he2
  · intro rest hhit
    rw [loaded_cons_timeout_error parse _ e1 rest p r he1 hp hc hr,
        if_pos (by rw [hstart, hhit])]
  · intro rest
    exact loaded_cons_finished parse _ e2 rest he2

/-- Witness for C4, the spec's end-to-end scenario: after navigating to
"http://example.com", a connectivity-timeout received-error for
"http://other.com" does not abort the wait, and the following
page-finished event makes `loaded` return successfully. -/
theorem C4_loaded_witness :
    loaded
        (fun c =>
          if c = "errpayload" then
            some { code := some (-8), msg := some "m",
                   request := some { uri := "http://other.com", method := "GET",
                                     requestHeaders := [], isRedirect := false,
                                     isForMainFrame := true } }
          else none)
        (FakeBrowser.start "http://example.com" { start_url := "" })
        [{ id := "e1", type := "WEBVIEW_RECEIVED_ERROR", content := "errpayload", parent_id := none },
         { id := "e2", type := "WEBVIEW_PAGE_FINISHED", content := "http://example.com", parent_id := none }] =
      LoadedOutcome.success :=
  (C4_loaded
    (fun c =>
      if c = "errpayload" then
        some { code := some (-8), msg := some "m",
               request := some { uri := "http://other.com", method := "GET",
                                 requestHeaders := [], isRedirect := false,
                                 isForMainFrame := true } }
      else none)
    { start_url := "" } "http://example.com"
    { id := "e1", type := "WEBVIEW_RECEIVED_ERROR", content := "errpayload", parent_id := none }
    { id := "e2", type := "WEBVIEW_PAGE_FINISHED", content := "http://example.com", parent_id := none }
    { code := some (-8), msg := some "m",
      request := some { uri := "http://other.com", method := "GET", requestHeaders := [],
                        isRedirect := false, isForMainFrame := true } }
    { uri := "http://other.com", method := "GET", requestHeaders := [],
      isRedirect := false, isForMainFrame := true }
    rfl (by decide) rfl rfl rfl).2.1 [] (by decide)

/-- C7: a category wait over a set S of categories stores one shared future
under every key of S; the first dispatched event whose type is in S
resolves that future; a later dispatched event with type in S leaves the
already-resolved future unchanged; and when the wait completes, the
cleanup removes every key of S together. -/
theorem C7_category_wait (s0 s1 s2 s2' : ManagerState) (S : List String)
    (fid : Nat) (calls calls' : List (Nat × String)) (e e' : Event)
    (hreg : wait_for_event_type_register S s0 = (s1, fid))
    (hwf_i : ∀ v ∈ dictValues s0.pending_requests, v < s0.futures.length)
    (he : e.type ∈ S)
    (hdisp : handle_response e s1 = (s2, calls))
    (hdisp' : handle_response e' s2 = (s2', calls')) :
    (∀ k ∈ S, dictLookup k s1.pending_type_requests = some fid) ∧
    s1.futures[fid]? = some FutState.pending ∧
    s2.futures[fid]? = some (FutState.done e) ∧
    s2'.futures[fid]? = some (FutState.done e) ∧
    wait_for_event_type_finish S fid false s2 =
      some ({ s2 with pending_type_requests :=
                S.foldl (fun d k => dictErase k d) s2.pending_type_requests },
            WaitResult.gotEvent e) ∧
    (∀ k ∈ S, dictLookup k (S.foldl (fun d k => dictErase k d) s2.pending_type_requests) = none) := by
  unfold wait_for_event_type_register at hreg
  simp only [Prod.mk.injEq] at hreg
  obtain ⟨hs1, hfid⟩ := hreg
  have hkeys : ∀ k ∈ S, dictLookup k s1.pending_type_requests = some fid := by
    intro k hk
    rw [← hs1, ← hfid]
    exact dictLookup_foldl_insert_mem _ hk
  have hpend : s1.futures[fid]? = some FutState.pending := by
    rw [← hs1, ← hfid]
    exact List.getElem?_concat_length _ _
  have hident : ∀ q, dictLookup q s1.pending_requests ≠ some fid := by
    intro q hc
    rw [← hs1] at hc
    have hv := dictLookup_mem_values hc
    have := hwf_i fid hv
    rw [← hfid] at this
    exact Nat.lt_irrefl _ this
  have hdone : s2.futures[fid]? = some (FutState.done e) := by
    rw [show s2 = (handle_response e s1).1 from by rw [hdisp]]
    exact handle_response_resolves_cat e s1 (hkeys e.type he) hpend
      (fun p _ => hident p)
  have hident2 : ∀ q, dictLookup q s2.pending_requests ≠ some fid := by
    intro q
    rw [show s2 = (handle_response e s1).1 from by rw [hdisp],
        handle_response_pending_requests]
    exact hident q
  have hkeep : s2'.futures[fid]? = some (FutState.done e) := by
    rw [show s2' = (handle_response e' s2).1 from by rw [hdisp']]
    exact handle_response_keeps_done e' s2 hdone (fun p _ => hident2 p)
  refine ⟨hkeys, hpend, hdone, hkeep, ?_, ?_⟩
  · unfold wait_for_event_type_finish waitOutcome
    rw [hdone]
    rfl
  · intro k hk
    exact dictLookup_foldl_erase_mem _ hk

/-- Witness for C7: a wait over the category pair {A, B}; one shared future
is stored under both keys, an event of type A resolves it, a following
event of type B does not change it, and the cleanup removes both keys. -/
theorem C7_category_wait_witness :
    (∀ k ∈ ["A", "B"],
        dictLookup k
            ((wait_for_event_type_register ["A", "B"]
                { futures := [], pending_requests := [], pending_type_requests := [],
                  hook_events := [] }).1).pending_type_requests = some 0) ∧
    ((handle_response { id := "e1", type := "A", content := "c1", parent_id := none }
        (wait_for_event_type_register ["A", "B"]
          { futures := [], pending_requests := [], pending_type_requests := [],
            hook_events := [] }).1).1.futures)[0]? =
      some (FutState.done { id := "e1", type := "A", content := "c1", parent_id := none }) ∧
    ((handle_response { id := "e2", type := "B", content := "c2", parent_id := none }
        (handle_response { id := "e1", type := "A", content := "c1", parent_id := none }
          (wait_for_event_type_register ["A", "B"]
            { futures := [], pending_requests := [], pending_type_requests := [],
              hook_events := [] }).1).1).1.futures)[0]? =
      some (FutState.done { id := "e1", type := "A", content := "c1", parent_id := none }) := by
  have h := C7_category_wait
    { futures := [], pending_requests := [], pending_type_requests := [], hook_events := [] }
    (wait_for_event_type_register ["A", "B"]
      { futures := [], pending_requests := [], pending_type_requests := [],
        hook_events := [] }).1
    (handle_response { id := "e1", type := "A", content := "c1", parent_id := none }
      (wait_for_event_type_register ["A", "B"]
        { futures := [], pending_requests := [], pending_type_requests := [],
          hook_events := [] }).1).1
    (handle_response { id := "e2", type := "B", content := "c2", parent_id := none }
      (handle_response { id := "e1", type := "A", content := "c1", parent_id := none }
        (wait_for_event_type_register ["A", "B"]
          { futures := [], pending_requests := [], pending_type_requests := [],
            hook_events := [] }).1).1).1
    ["A", "B"] 0
    (handle_response { id := "e1", type := "A", content := "c1", parent_id := none }
      (wait_for_event_type_register ["A", "B"]
        { futures := [], pending_requests := [], pending_type_requests := [],
          hook_events := [] }).1).2
    (handle_response { id := "e2", type := "B", content := "c2", parent_id := none }
      (handle_response { id := "e1", type := "A", content := "c1", parent_id := none }
        (wait_for_event_type_register ["A", "B"]
          { futures := [], pending_requests := [], pending_type_requests := [],
            hook_events := [] }).1).1).2
    { id := "e1", type := "A", content := "c1", parent_id := none }
    { id := "e2", type := "B", content := "c2", parent_id := none }
    rfl (by decide) (by decide) rfl rfl
  exact ⟨h.1, h.2.2.1, h.2.2.2.1⟩

/-- C5: a waiter whose timeout expires with no matching event dispatched
resolves to the no-result outcome (`WaitResult.noResult`, a constructor
distinct from the connection-closed outcome `WaitResult.connClosed`), its
key(s) are removed from its table by the cleanup, and a matching event
dispatched after expiry does not resolve it (the future stays cancelled).
The first half states this for an identity waiter on key `k` after any
sequence of non-matching dispatches, the second half for a category waiter
over the key set `S`. -/
theorem C5_timeout (s : ManagerState) (k : String) (fid : Nat)
    (es : List Event) (e' : Event)
    (sc : ManagerState) (S : List String) (gid : Nat)
    (esc : List Event) (e'' : Event)
    (hli : dictLookup k s.pending_requests = some fid)
    (hpend : s.futures[fid]? = some FutState.pending)
    (honly : ∀ q ∈ s.pending_requests, q.2 = fid → q.1 = k)
    (hnt : fid ∉ dictValues s.pending_type_requests)
    (hes : ∀ x ∈ es, x.parent_id ≠ some k)
    (hpar' : e'.parent_id = some k)
    (hlc : ∀ kk ∈ S, dictLookup kk sc.pending_type_requests = some gid)
    (hgpend : sc.futures[gid]? = some FutState.pending)
    (honlyc : ∀ q ∈ sc.pending_type_requests, q.2 = gid → q.1 ∈ S)
    (hni : gid ∉ dictValues sc.pending_requests)
    (hesc : ∀ x ∈ esc, x.type ∉ S)
    (htyp'' : e''.type ∈ S) :
    ((dispatchAll es s).futures[fid]? = some FutState.pending ∧
      dictLookup k (dispatchAll es s).pending_requests = some fid) ∧
    wait_for_response_finish k fid true (dispatchAll es s) =
      some ({ dispatchAll es s with
                futures := cancelIfPending fid (dispatchAll es s).futures,
                pending_requests := dictErase k (dispatchAll es s).pending_requests },
            WaitResult.noResult) ∧
    dictLookup k (dictErase k (dispatchAll es s).pending_requests) = none ∧
    ((handle_response e'
        { dispatchAll es s with
            futures := cancelIfPending fid (dispatchAll es s).futures,
            pending_requests := dictErase k (dispatchAll es s).pending_requests }).1.futures)[fid]? =
      some FutState.cancelled ∧
    ((dispatchAll esc sc).futures[gid]? = some FutState.pending ∧
      ∀ kk ∈ S, dictLookup kk (dispatchAll esc sc).pending_type_requests = some gid) ∧
    wait_for_event_type_finish S gid true (dispatchAll esc sc) =
      some ({ dispatchAll esc sc with
                futures := cancelIfPending gid (dispatchAll esc sc).futures,
                pending_type_requests :=
                  S.foldl (fun d kk => dictErase kk d) (dispatchAll esc sc).pending_type_requests },
            WaitResult.noResult) ∧
    (∀ kk ∈ S, dictLookup kk
        (S.foldl (fun d kk => dictErase kk d) (dispatchAll esc sc).pending_type_requests) = none) ∧
    ((handle_response e''
        { dispatchAll esc sc with
            futures := cancelIfPending gid (dispatchAll esc sc).futures,
            pending_type_requests :=
              S.foldl (fun d kk => dictErase kk d) (dispatchAll esc sc).pending_type_requests }).1.futures)[gid]? =
      some FutState.cancelled := by
  have h1es : ∀ x ∈ es, ∀ p, x.parent_id = some p →
      dictLookup p s.pending_requests ≠ some fid := by
    intro x hx p hp hc
    have hm := dictLookup_mem hc
    have hpk : p = k := honly (p, fid) hm rfl
    subst hpk
    exact hes x hx hp
  have h2es : ∀ x ∈ es, dictLookup x.type s.pending_type_requests ≠ some fid :=
    fun x _ => dictLookup_ne_of_not_mem_values hnt
  have hA : (dispatchAll es s).futures[fid]? = some FutState.pending := by
    rw [dispatchAll_futures_getElem es s h1es h2es]
    exact hpend
  have hAk : dictLookup k (dispatchAll es s).pending_requests = some fid := by
    rw [dispatchAll_pending_requests]
    exact hli
  have hAt : (dispatchAll es s).pending_type_requests = s.pending_type_requests :=
    dispatchAll_pending_type_requests es s
  have hcancel : (cancelIfPending fid (dispatchAll es s).futures)[fid]? =
      some FutState.cancelled := cancelIfPending_pending hA
  have h1esc : ∀ x ∈ esc, ∀ p, x.parent_id = some p →
      dictLookup p sc.pending_requests ≠ some gid :=
    fun x _ p _ => dictLookup_ne_of_not_mem_values hni
  have h2esc : ∀ x ∈ esc, dictLookup x.type sc.pending_type_requests ≠ some gid := by
    intro x hx hc
    have hm := dictLookup_mem hc
    have := honlyc (x.type, gid) hm rfl
    exact hesc x hx this
  have hAC : (dispatchAll esc sc).futures[gid]? = some FutState.pending := by
    rw [dispatchAll_futures_getElem esc sc h1esc h2esc]
    exact hgpend
  have hACt : (dispatchAll esc sc).pending_type_requests = sc.pending_type_requests :=
    dispatchAll_pending_type_requests esc sc
  have hACi : (dispatchAll esc sc).pending_requests = sc.pending_requests :=
    dispatchAll_pending_requests esc sc
  have hcancelc : (cancelIfPending gid (dispatchAll esc sc).futures)[gid]? =
      some FutState.cancelled := cancelIfPending_pending hAC
  refine ⟨⟨hA, hAk⟩, ?_, ?_, ?_, ⟨hAC, ?_⟩, ?_, ?_, ?_⟩
  · unfold wait_for_response_finish waitOutcome
    rw [hA]
    rfl
  · rw [dictLookup_erase, if_pos rfl]
  · rw [handle_response_futures_getElem e' _
      (by
        intro p hp hc
        rw [hpar'] at hp
        cases hp
        rw [show dictLookup k
              (dictErase k (dispatchAll es s).pending_requests) = none from by
            rw [dictLookup_erase, if_pos rfl]] at hc
        exact Option.noConfusion hc)
      (by
        show dictLookup e'.type (dispatchAll es s).pending_type_requests ≠ some fid
        rw [hAt]
        exact dictLookup_ne_of_not_mem_values hnt)]
    exact hcancel
  · intro kk hkk
    rw [hACt]
    exact hlc kk hkk
  · unfold wait_for_event_type_finish waitOutcome
    rw [hAC]
    rfl
  · intro kk hkk
    exact dictLookup_foldl_erase_mem _ hkk
  · rw [handle_response_futures_getElem e'' _
      (by
        intro p _ hc
        revert hc
        show dictLookup p (dispatchAll esc sc).pending_requests ≠ some gid
        rw [hACi]
        exact dictLookup_ne_of_not_mem_values hni)
      (by
        show dictLookup e''.type
            (S.foldl (fun d kk => dictErase kk d) (dispatchAll esc sc).pending_type_requests) ≠
          some gid
        rw [dictLookup_foldl_erase_mem _ htyp'']
        exact fun hc => Option.noConfusion hc)]
    exact hcancelc

/-- Witness for C5: an identity waiter on "k" survives a non-matching
dispatch, times out to no-result with its key removed, and a matching
event arriving after expiry leaves its future cancelled; a category
waiter over {A, B} times out to no-result with both keys removed. -/
theorem C5_timeout_witness :
    wait_for_response_finish "k" 0 true
        (dispatchAll [{ id := "x1", type := "T", content := "c", parent_id := none }]
          { futures := [FutState.pending], pending_requests := [("k", 0)],
            pending_type_requests := [], hook_events := [] }) =
      some ({ futures := [FutState.cancelled], pending_requests := [],
              pending_type_requests := [], hook_events := [] },
            WaitResult.noResult) ∧
    ((handle_response { id := "x2", type := "T", content := "c", parent_id := some "k" }
        { futures := [FutState.cancelled], pending_requests := [],
          pending_type_requests := [], hook_events := [] }).1.futures)[0]? =
      some FutState.cancelled ∧
    (∀ kk ∈ ["A", "B"], dictLookup kk
        (["A", "B"].foldl (fun d kk => dictErase kk d)
          (dispatchAll [{ id := "y1", type := "C", content := "c", parent_id := none }]
            { futures := [FutState.pending], pending_requests := [],
              pending_type_requests := [("A", 0), ("B", 0)],
              hook_events := [] }).pending_type_requests) = none) := by
  have h := C5_timeout
    { futures := [FutState.pending], pending_requests := [("k", 0)],
      pending_type_requests := [], hook_events := [] }
    "k" 0
    [{ id := "x1", type := "T", content := "c", parent_id := none }]
    { id := "x2", type := "T", content := "c", parent_id := some "k" }
    { futures := [FutState.pending], pending_requests := [],
      pending_type_requests := [("A", 0), ("B", 0)], hook_events := [] }
    ["A", "B"] 0
    [{ id := "y1", type := "C", content := "c", parent_id := none }]
    { id := "y2", type := "A", content := "c", parent_id := none }
    (by decide) (by decide) (by decide) (by decide) (by decide) rfl
    (by decide) (by decide) (by decide) (by decide) (by decide) (by decide)
  exact ⟨h.2.1, h.2.2.2.1, h.2.2.2.2.2.2.1⟩

theorem on_ws_closed_keeps_unlisted {s s' : ManagerState} {f : Nat}
    (hni : f ∉ dictValues s.pending_requests)
    (hnt : f ∉ dictValues s.pending_type_requests)
    (hclose : on_ws_closed s = some s') :
    s'.futures[f]? = s.futures[f]? := by
  rw [on_ws_closed_eq] at hclose
  cases hall : setExnAll
      (dictValues s.pending_requests ++ dictValues s.pending_type_requests)
      s.futures with
  | none => rw [hall] at hclose; exact Option.noConfusion hclose
  | some futs' =>
      rw [hall] at hclose
      have hclose : ({ s with futures := futs' } : ManagerState) = s' :=
        Option.some.inj hclose
      have hpres := setExnAll_getElem_not_mem
        (f := f)
        (by
          intro hc
          rcases List.mem_append.mp hc with hc1 | hc1
          · exact hni hc1
          · exact hnt hc1)
        hall
      rw [← hclose]
      exact hpres

/-- Counterexample to C8 as stated, on both tables.  Identity table:
register a waiter on key "k" (future 0), register a second waiter on "k"
(future 1), which displaces the first; the displaced waiter is still
resolved by its own timeout -- its wait finishes with the no-result
outcome.  Category table: register a waiter over ["A"] (future 0), then a
second over ["A"] (future 1); the displaced category waiter is likewise
resolved by its own timeout.  Both contradict the claim that no timeout
ever resolves a displaced waiter. -/
theorem C8_displacement_cex :
    dictLookup "k"
        ((wait_for_response_register "k"
            (wait_for_response_register "k"
              { futures := [], pending_requests := [], pending_type_requests := [],
                hook_events := [] }).1).1).pending_requests = some 1 ∧
    (wait_for_response_finish "k" 0 true
        (wait_for_response_register "k"
          (wait_for_response_register "k"
            { futures := [], pending_requests := [], pending_type_requests := [],
              hook_events := [] }).1).1).map (fun x => x.2) =
      some WaitResult.noResult ∧
    dictLookup "A"
        ((wait_for_event_type_register ["A"]
            (wait_for_event_type_register ["A"]
              { futures := [], pending_requests := [], pending_type_requests := [],
                hook_events := [] }).1).1).pending_type_requests = some 1 ∧
    (wait_for_event_type_finish ["A"] 0 true
        (wait_for_event_type_register ["A"]
          (wait_for_event_type_register ["A"]
            { futures := [], pending_requests := [], pending_type_requests := [],
              hook_events := [] }).1).1).map (fun x => x.2) =
      some WaitResult.noResult := by
  decide

/-- C8 amended: a second registration on an occupied identity or category
key silently displaces the first waiter, which is then never resolved by
any dispatched event nor by `on_ws_closed` (its future stays pending under
both); however its own timeout, when one was supplied, still resolves it
-- to the no-result outcome.  The first half states this for a waiter
displaced from identity key `k` (displaced future `f1`, displacer `f2`),
the second half for a waiter displaced from category key `kc` whose own
registered key list was `Sc` (displaced future `g1`, displacer `g2`). -/
theorem C8_displacement (s : ManagerState) (k : String) (f1 f2 : Nat)
    (e : Event) (s' : ManagerState)
    (sc : ManagerState) (Sc : List String) (kc : String) (g1 g2 : Nat)
    (ec : Event) (sc' : ManagerState)
    (hocc : dictLookup k s.pending_requests = some f2)
    (hne : f1 ≠ f2)
    (hpend : s.futures[f1]? = some FutState.pending)
    (hni : f1 ∉ dictValues s.pending_requests)
    (hnt : f1 ∉ dictValues s.pending_type_requests)
    (hoccc : dictLookup kc sc.pending_type_requests = some g2)
    (hnec : g1 ≠ g2)
    (hgpend : sc.futures[g1]? = some FutState.pending)
    (hnic : g1 ∉ dictValues sc.pending_requests)
    (hntc : g1 ∉ dictValues sc.pending_type_requests) :
    ((handle_response e s).1.futures)[f1]? = some FutState.pending ∧
    (on_ws_closed s = some s' → s'.futures[f1]? = some FutState.pending) ∧
    (wait_for_response_finish k f1 true s).map (fun x => x.2) =
      some WaitResult.noResult ∧
    ((handle_response ec sc).1.futures)[g1]? = some FutState.pending ∧
    (on_ws_closed sc = some sc' → sc'.futures[g1]? = some FutState.pending) ∧
    (wait_for_event_type_finish Sc g1 true sc).map (fun x => x.2) =
      some WaitResult.noResult := by
  refine ⟨?_, ?_, ?_, ?_, ?_, ?_⟩
  · rw [handle_response_futures_getElem e s
      (fun p _ => dictLookup_ne_of_not_mem_values hni)
      (dictLookup_ne_of_not_mem_values hnt)]
    exact hpend
  · intro hclose
    rw [on_ws_closed_keeps_unlisted hni hnt hclose]
    exact hpend
  · unfold wait_for_response_finish waitOutcome
    rw [hpend]
    rfl
  · rw [handle_response_futures_getElem ec sc
      (fun p _ => dictLookup_ne_of_not_mem_values hnic)
      (dictLookup_ne_of_not_mem_values hntc)]
    exact hgpend
  · intro hclose
    rw [on_ws_closed_keeps_unlisted hnic hntc hclose]
    exact hgpend
  · unfold wait_for_event_type_finish waitOutcome
    rw [hgpend]
    rfl

/-- Witness for C8 amended, both halves at concrete displaced states.
Identity: future 0 on "k" was displaced by future 1; a matching dispatched
event leaves future 0 pending and its own timeout yields no-result.
Category: future 0 on "A" was displaced by future 1; an event of type "A"
leaves future 0 pending and its own timeout yields no-result. -/
theorem C8_displacement_witness :
    ((handle_response { id := "x", type := "T", content := "c", parent_id := some "k" }
        { futures := [FutState.pending, FutState.pending],
          pending_requests := [("k", 1)], pending_type_requests := [],
          hook_events := [] }).1.futures)[0]? = some FutState.pending ∧
    (wait_for_response_finish "k" 0 true
        { futures := [FutState.pending, FutState.pending],
          pending_requests := [("k", 1)], pending_type_requests := [],
          hook_events := [] }).map (fun x => x.2) = some WaitResult.noResult ∧
    ((handle_response { id := "y", type := "A", content := "c", parent_id := none }
        { futures := [FutState.pending, FutState.pending],
          pending_requests := [], pending_type_requests := [("A", 1)],
          hook_events := [] }).1.futures)[0]? = some FutState.pending ∧
    (wait_for_event_type_finish ["A"] 0 true
        { futures := [FutState.pending, FutState.pending],
          pending_requests := [], pending_type_requests := [("A", 1)],
          hook_events := [] }).map (fun x => x.2) = some WaitResult.noResult := by
  have h := C8_displacement
    { futures := [FutState.pending, FutState.pending],
      pending_requests := [("k", 1)], pending_type_requests := [],
      hook_events := [] }
    "k" 0 1
    { id := "x", type := "T", content := "c", parent_id := some "k" }
    { futures := [FutState.pending, FutState.failed Exn.clientClosed],
      pending_requests := [("k", 1)], pending_type_requests := [],
      hook_events := [] }
    { futures := [FutState.pending, FutState.pending],
      pending_requests := [], pending_type_requests := [("A", 1)],
      hook_events := [] }
    ["A"] "A" 0 1
    { id := "y", type := "A", content := "c", parent_id := none }
    { futures := [FutState.pending, FutState.failed Exn.clientClosed],
      pending_requests := [], pending_type_requests := [("A", 1)],
      hook_events := [] }
    (by decide) (by decide) (by decide) (by decide) (by decide)
    (by decide) (by decide) (by decide) (by decide) (by decide)
  exact ⟨h.1, h.2.2.1, h.2.2.2.1, h.2.2.2.2.2⟩

/-- C9: when a displaced wait on key `k` finishes (here: by timeout), its
`finally` cleanup pops whatever entry currently occupies `k` -- the
displacing waiter's entry.  Afterwards no dispatched event can resolve the
displacing waiter (its future stays pending), `on_ws_closed` does not
reach it either, and only its own timeout still resolves it (to
no-result).  The first half states this for the identity table (displaced
future `f1`, displacing future `f2`), the second half for a single-key
category wait (displaced `g1`, displacing `g2`). -/
theorem C9_displaced_cleanup (s : ManagerState) (k : String) (f1 f2 : Nat)
    (s'' : ManagerState)
    (sc : ManagerState) (kc : String) (g1 g2 : Nat)
    (hocc : dictLookup k s.pending_requests = some f2)
    (hne : f1 ≠ f2)
    (hp1 : s.futures[f1]? = some FutState.pending)
    (hp2 : s.futures[f2]? = some FutState.pending)
    (honly : ∀ q ∈ s.pending_requests, q.2 = f2 → q.1 = k)
    (hnt : f2 ∉ dictValues s.pending_type_requests)
    (hoccc : dictLookup kc sc.pending_type_requests = some g2)
    (hnec : g1 ≠ g2)
    (hq1 : sc.futures[g1]? = some FutState.pending)
    (hq2 : sc.futures[g2]? = some FutState.pending)
    (honlyc : ∀ q ∈ sc.pending_type_requests, q.2 = g2 → q.1 = kc)
    (hnic : g2 ∉ dictValues sc.pending_requests) :
    wait_for_response_finish k f1 true s =
      some ({ s with futures := cancelIfPending f1 s.futures,
                     pending_requests := dictErase k s.pending_requests },
            WaitResult.noResult) ∧
    dictLookup k (dictErase k s.pending_requests) = none ∧
    (∀ e : Event,
      ((handle_response e
          { s with futures := cancelIfPending f1 s.futures,
                   pending_requests := dictErase k s.pending_requests }).1.futures)[f2]? =
        some FutState.pending) ∧
    (on_ws_closed { s with futures := cancelIfPending f1 s.futures,
                           pending_requests := dictErase k s.pending_requests } = some s'' →
      s''.futures[f2]? = some FutState.pending) ∧
    (wait_for_response_finish k f2 true
        { s with futures := cancelIfPending f1 s.futures,
                 pending_requests := dictErase k s.pending_requests }).map (fun x => x.2) =
      some WaitResult.noResult ∧
    wait_for_event_type_finish [kc] g1 true sc =
      some ({ sc with futures := cancelIfPending g1 sc.futures,
                      pending_type_requests :=
                        [kc].foldl (fun d kk => dictErase kk d) sc.pending_type_requests },
            WaitResult.noResult) ∧
    dictLookup kc (dictErase kc sc.pending_type_requests) = none ∧
    (∀ e : Event,
      ((handle_response e
          { sc with futures := cancelIfPending g1 sc.futures,
                    pending_type_requests := dictErase kc sc.pending_type_requests }).1.futures)[g2]? =
        some FutState.pending) := by
  have hf2cancel : (cancelIfPending f1 s.futures)[f2]? = some FutState.pending := by
    rw [cancelIfPending_getElem_ne _ (fun hc => hne hc.symm)]
    exact hp2
  have hg2cancel : (cancelIfPending g1 sc.futures)[g2]? = some FutState.pending := by
    rw [cancelIfPending_getElem_ne _ (fun hc => hnec hc.symm)]
    exact hq2
  have hgone : f2 ∉ dictValues (dictErase k s.pending_requests) :=
    dictValues_erase_not_mem honly
  have hgonec : g2 ∉ dictValues (dictErase kc sc.pending_type_requests) :=
    dictValues_erase_not_mem honlyc
  refine ⟨?_, ?_, ?_, ?_, ?_, ?_, ?_, ?_⟩
  · unfold wait_for_response_finish waitOutcome
    rw [hp1]
    rfl
  · rw [dictLookup_erase, if_pos rfl]
  · intro e
    rw [handle_response_futures_getElem e
      { s with
          futures := cancelIfPending f1 s.futures,
          pending_requests := dictErase k s.pending_requests }
      (fun p _ => dictLookup_ne_of_not_mem_values hgone)
      (dictLookup_ne_of_not_mem_values hnt)]
    exact hf2cancel
  · intro hclose
    rw [on_ws_closed_eq] at hclose
    cases hall : setExnAll
        (dictValues (dictErase k s.pending_requests) ++ dictValues s.pending_type_requests)
        (cancelIfPending f1 s.futures) with
    | none => rw [hall] at hclose; exact Option.noConfusion hclose
    | some futs' =>
        rw [hall] at hclose
        have hclose : ({ s with
                          futures := futs',
                          pending_requests := dictErase k s.pending_requests } : ManagerState) = s'' :=
          Option.some.inj hclose
        have hpres := setExnAll_getElem_not_mem
          (f := f2)
          (by
            intro hc
            rcases List.mem_append.mp hc with hc1 | hc1
            · exact hgone hc1
            · exact hnt hc1)
          hall
        rw [← hclose]
        rw [hpres]
        exact hf2cancel
  · unfold wait_for_response_finish waitOutcome
    rw [hf2cancel]
    rfl
  · unfold wait_for_event_type_finish waitOutcome
    rw [hq1]
    rfl
  · rw [dictLookup_erase, if_pos rfl]
  · intro e
    rw [handle_response_futures_getElem e
      { sc with
          futures := cancelIfPending g1 sc.futures,
          pending_type_requests := dictErase kc sc.pending_type_requests }
      (fun p _ => dictLookup_ne_of_not_mem_values hnic)
      (dictLookup_ne_of_not_mem_values hgonec)]
    exact hg2cancel

/-- Witness for C9: future 0 on key "k" was displaced by future 1; its
timeout cleanup removes the displacing entry, after which a matching
dispatched event leaves future 1 pending, and only the displacer's own
timeout yields a (no-result) resolution; similarly on the category table
for key "A". -/
theorem C9_displaced_cleanup_witness :
    wait_for_response_finish "k" 0 true
        { futures := [FutState.pending, FutState.pending],
          pending_requests := [("k", 1)], pending_type_requests := [],
          hook_events := [] } =
      some ({ futures := [FutState.cancelled, FutState.pending],
              pending_requests := [], pending_type_requests := [],
              hook_events := [] },
            WaitResult.noResult) ∧
    ((handle_response { id := "x", type := "T", content := "c", parent_id := some "k" }
        { futures := [FutState.cancelled, FutState.pending],
          pending_requests := [], pending_type_requests := [],
          hook_events := [] }).1.futures)[1]? = some FutState.pending := by
  have h := C9_displaced_cleanup
    { futures := [FutState.pending, FutState.pending],
      pending_requests := [("k", 1)], pending_type_requests := [],
      hook_events := [] }
    "k" 0 1
    { futures := [FutState.cancelled, FutState.pending],
      pending_requests := [], pending_type_requests := [],
      hook_events := [] }
    { futures := [FutState.pending, FutState.pending],
      pending_requests := [], pending_type_requests := [("A", 1)],
      hook_events := [] }
    "A" 0 1
    (by decide) (by decide) (by decide) (by decide) (by decide) (by decide)
    (by decide) (by decide) (by decide) (by decide) (by decide) (by decide)
  exact ⟨h.1, h.2.2.1 { id := "x", type := "T", content := "c", parent_id := some "k" }⟩

theorem setExnAll_cons_not_pending {fid : Nat} (rest : List Nat)
    {futs : List FutState} {x : FutState}
    (h : futs[fid]? = some x) (hx : x ≠ FutState.pending) :
    setExnAll (fid :: rest) futs = none := by
  unfold setExnAll setExnStrict
  rw [h]
  cases x with
  | pending => exact absurd rfl hx
  | done _ => rfl
  | failed _ => rfl
  | cancelled => rfl

/-- Counterexample to C1 as stated: on a manager with one pending identity
waiter, `on_ws_closed` leaves the table entry in place (the tables are not
cleared), and calling it a second time raises `InvalidStateError` (modelled
`none`) instead of being a no-op; moreover on a manager whose waiter had
already resolved with an event, even the first call raises. -/
theorem C1_shutdown_cex :
    on_ws_closed
        { futures := [FutState.pending], pending_requests := [("a", 0)],
          pending_type_requests := [], hook_events := [] } =
      some { futures := [FutState.failed Exn.clientClosed],
             pending_requests := [("a", 0)],
             pending_type_requests := [], hook_events := [] } ∧
    on_ws_closed
        { futures := [FutState.failed Exn.clientClosed],
          pending_requests := [("a", 0)],
          pending_type_requests := [], hook_events := [] } = none ∧
    on_ws_closed
        { futures := [FutState.done { id := "r", type := "T", content := "c", parent_id := none }],
          pending_requests := [("a", 0)], pending_type_requests := [],
          hook_events := [] } = none := by
  decide

/-- C1 amended: when every future listed in the two tables is still pending
and no future is listed twice, `on_ws_closed` succeeds and raises the
connection-closed failure into each of them, leaving all other futures and
both tables unchanged -- the tables are NOT cleared -- and, whenever the
tables were nonempty, a second call raises `InvalidStateError` (modelled
`none`) rather than being a no-op. -/
theorem C1_shutdown (s s' : ManagerState)
    (hnd : (dictValues s.pending_requests ++ dictValues s.pending_type_requests).Nodup)
    (hp : ∀ f ∈ dictValues s.pending_requests ++ dictValues s.pending_type_requests,
        s.futures[f]? = some FutState.pending) :
    (on_ws_closed s).isSome = true ∧
    (on_ws_closed s = some s' →
      ((∀ f ∈ dictValues s.pending_requests ++ dictValues s.pending_type_requests,
          s'.futures[f]? = some (FutState.failed Exn.clientClosed)) ∧
       (∀ g, g ∉ dictValues s.pending_requests ++ dictValues s.pending_type_requests →
          s'.futures[g]? = s.futures[g]?) ∧
       s'.pending_requests = s.pending_requests ∧
       s'.pending_type_requests = s.pending_type_requests ∧
       (dictValues s.pending_requests ++ dictValues s.pending_type_requests ≠ [] →
          on_ws_closed s' = none))) := by
  obtain ⟨futs', hset, hall, hpres⟩ := setExnAll_ok hnd hp
  have heq := on_ws_closed_eq s
  rw [hset] at heq
  constructor
  · rw [heq]
    rfl
  · intro hsome
    rw [heq] at hsome
    have hs' : ({ s with futures := futs' } : ManagerState) = s' :=
      Option.some.inj hsome
    subst hs'
    refine ⟨hall, hpres, rfl, rfl, ?_⟩
    intro hne
    cases hvs : dictValues s.pending_requests ++ dictValues s.pending_type_requests with
    | nil => exact absurd hvs hne
    | cons f rest =>
        have hmem : f ∈ dictValues s.pending_requests ++ dictValues s.pending_type_requests := by
          rw [hvs]
          simp
        have hfail := hall f hmem
        rw [on_ws_closed_eq]
        show (setExnAll (dictValues s.pending_requests ++ dictValues s.pending_type_requests)
            futs').map _ = none
        rw [hvs, setExnAll_cons_not_pending rest hfail
          (fun hc => FutState.noConfusion hc)]
        rfl

/-- Witness for C1 amended: a manager with one identity waiter and one
category waiter: the first `on_ws_closed` succeeds, the second raises. -/
theorem C1_shutdown_witness :
    (on_ws_closed
        { futures := [FutState.pending, FutState.pending],
          pending_requests := [("a", 0)], pending_type_requests := [("T", 1)],
          hook_events := [] }).isSome = true ∧
    on_ws_closed
        { futures := [FutState.failed Exn.clientClosed, FutState.failed Exn.clientClosed],
          pending_requests := [("a", 0)], pending_type_requests := [("T", 1)],
          hook_events := [] } = none := by
  have h := C1_shutdown
    { futures := [FutState.pending, FutState.pending],
      pending_requests := [("a", 0)], pending_type_requests := [("T", 1)],
      hook_events := [] }
    { futures := [FutState.failed Exn.clientClosed, FutState.failed Exn.clientClosed],
      pending_requests := [("a", 0)], pending_type_requests := [("T", 1)],
      hook_events := [] }
    (by decide) (by decide)
  exact ⟨h.1, (h.2 (by decide)).2.2.2.2 (by decide)⟩

end Fakeweb
